import Mathlib

/-!
Shallow embedding of `src/ternary/plotting.py` (python-ternary), together with
theorems settling the specification claims about it.

Modelling conventions:
* Python ints are `ℤ`, Python floats are `ℚ` (all arithmetic the claims touch
  is exact in binary floats as well); `range(a, b)` is `pyRange a b`.
* A Python dict `(i, j) -> value` is an association list `Dict` iterated in
  insertion order (Python dicts preserve insertion order and have unique keys);
  `d[k]` is `dlookup d k` (first match).
* Exceptions (`KeyError`, `ValueError` from `min`/`max` of an empty sequence,
  `ZeroDivisionError`) are `Except PyErr`.
* External matplotlib collaborators (the palette functions, `rgb2hex`, the
  `hex_coordinates` function imported from `hexagonal_heatmap`) are opaque
  fields of a `PlotEnv` parameter.
* A drawing surface (matplotlib axis) is an opaque handle `Ax`; a renderer
  receives the optional `ax` argument and, separately, pyplot's current axes
  `cur` (the surface module-level `pyplot.fill` / `pyplot.subplot` act on).
  `pyplot.subplot()` returns pyplot's current axes (creating one if needed),
  so when `ax` is absent the renderer works on `cur`.
* Rendering is modelled as the list of primitive drawing events issued, each
  recording the surface it targets; a fill's geometry is identified by the
  arguments of the `triangle_coordinates` / `hex_coordinates` call that
  produced it (the numeric geometry itself is `triangle_coordinates` below).
* Colorbar formatting details (`format`, `scientific`, tick locator) configure
  text rendering only and are not modelled beyond the colorbar event.
-/

namespace Ternary

/-- Python exceptions that the modelled code can raise. -/
inductive PyErr where
  | keyError
  | valueError
  | zeroDivisionError
  deriving DecidableEq, Repr

/-- Python `str.lower()` on one character: ASCII upper-case letters map to
lower case (sufficient for the style names the code compares against). -/
def pyLowerChar (c : Char) : Char :=
  if 'A' ≤ c ∧ c ≤ 'Z' then Char.ofNat (c.toNat + 32) else c

/-- Python `s.lower()`. -/
def pyLower (s : String) : String :=
  ⟨s.data.map pyLowerChar⟩

/-- Python `s.startswith(p)`. -/
def pyStartsWith (s p : String) : Bool :=
  p.data.isPrefixOf s.data

/-- Python `range(a, b)` as a list of integers. -/
def pyRange (a b : ℤ) : List ℤ :=
  (List.range (b - a).toNat).map (fun k : ℕ => a + (k : ℤ))

theorem mem_pyRange {a b x : ℤ} : x ∈ pyRange a b ↔ a ≤ x ∧ x < b := by
  unfold pyRange
  rw [List.mem_map]
  constructor
  · rintro ⟨k, hk, rfl⟩
    rw [List.mem_range] at hk
    omega
  · intro h
    refine ⟨(x - a).toNat, ?_, ?_⟩
    · rw [List.mem_range]
      omega
    · rw [Int.toNat_of_nonneg (by omega)]
      omega

/-- `simplex_points(steps, boundary)`: the nested-loop enumeration
`for x1 in range(start, steps + (1 - start)):
   for x2 in range(start, steps + (1 - start) - x1): yield (x1, x2, steps - x1 - x2)`
with `start = 0` if `boundary` else `1`. -/
def simplex_points (steps : ℤ) (boundary : Bool) : List (ℤ × ℤ × ℤ) :=
  let start : ℤ := if boundary then 0 else 1
  (pyRange start (steps + (1 - start))).flatMap fun x1 =>
    (pyRange start (steps + (1 - start) - x1)).map fun x2 =>
      (x1, x2, steps - x1 - x2)

/-- `normalize(xs)`: `s = float(sum(xs)); return [x / s for x in xs]`.
Python float division raises `ZeroDivisionError` when `s == 0` and the list
comprehension performs a division for every element, so a nonempty list with
zero sum raises; the empty list returns `[]`. -/
def normalize (xs : List ℚ) : Except PyErr (List ℚ) :=
  let s := xs.sum
  if s = 0 ∧ xs ≠ [] then .error .zeroDivisionError
  else .ok (xs.map fun x => x / s)

/-- `SQRT3OVER2 = math.sqrt(3) / 2.` -/
noncomputable def SQRT3OVER2 : ℝ := Real.sqrt 3 / 2

/-- `project_point(p)`: `a, b, c = p; return (b + c/2., SQRT3OVER2 * c)`
(the first coordinate `a` is read but unused). -/
noncomputable def project_point (p : ℝ × ℝ × ℝ) : ℝ × ℝ :=
  let b := p.2.1
  let c := p.2.2
  (b + c / 2, SQRT3OVER2 * c)

/-- `triangle_coordinates(i, j, alt)`: vertex lists of the upright and the
alt (inverted) heatmap triangles. -/
noncomputable def triangle_coordinates (i j : ℝ) (alt : Bool) : List (ℝ × ℝ) :=
  if !alt then
    [(i / 2 + j, i * SQRT3OVER2), (i / 2 + j + 1, i * SQRT3OVER2),
     (i / 2 + j + 0.5, (i + 1) * SQRT3OVER2)]
  else
    [(i / 2 + j + 1, i * SQRT3OVER2), (i / 2 + j + 1.5, (i + 1) * SQRT3OVER2),
     (i / 2 + j + 0.5, (i + 1) * SQRT3OVER2)]

/-- The external collaborators of `plotting.py`: palette lookup and default
palette (`pyplot.get_cmap`), `matplotlib.colors.rgb2hex`, and the opaque
`hex_coordinates(i, j, steps)` imported from `hexagonal_heatmap`, which
returns a polygon or `None`. -/
structure PlotEnv where
  Color : Type
  Poly : Type
  defaultColorMap : ℚ → Color
  getCmap : String → ℚ → Color
  rgb2hex : Color → String
  hexCoordinates : ℤ → ℤ → ℤ → Option Poly

/-- `colormapper(x, a=0, b=1, cmap=None)`: resolve `cmap` (falling back to
`DEFAULT_COLOR_MAP` when `None`), then return
`rgb2hex(cmap(0))` when `b - a == 0` else `rgb2hex(cmap((x - a) / float(b - a)))`. -/
def colormapper (env : PlotEnv) (x a b : ℚ) (cmap : Option (ℚ → env.Color)) : String :=
  let c := match cmap with
    | none => env.defaultColorMap
    | some f => f
  if b - a = 0 then env.rgb2hex (c 0)
  else env.rgb2hex (c ((x - a) / (b - a)))

/-- The `if not cmap_name: cmap = DEFAULT_COLOR_MAP else: cmap = pyplot.get_cmap(cmap_name)`
prelude shared by both renderers (`None` and the empty string are falsy). -/
def resolveCmap (env : PlotEnv) (cmap_name : Option String) : ℚ → env.Color :=
  match cmap_name with
  | none => env.defaultColorMap
  | some s => if s = "" then env.defaultColorMap else env.getCmap s

/-- A drawing surface handle (matplotlib axis), modelled as an opaque id. -/
abbrev Ax := ℕ

/-- The value map argument `d`: a dict from lattice index to value. -/
abbrev Dict := List ((ℤ × ℤ) × ℚ)

/-- Python `d[k]` / `k in d`: first (unique) binding of `k` in the dict. -/
def dlookup (d : Dict) (k : ℤ × ℤ) : Option ℚ :=
  match d with
  | [] => none
  | e :: es => if e.1 = k then some e.2 else dlookup es k

/-- `d.values()` in iteration order. -/
def dvalues (d : Dict) : List ℚ :=
  d.map Prod.snd

/-- Python `min(l)`: `None` (a `ValueError`) on the empty sequence. -/
def listMin : List ℚ → Option ℚ
  | [] => none
  | x :: xs => some (xs.foldl min x)

/-- Python `max(l)`: `None` (a `ValueError`) on the empty sequence. -/
def listMax : List ℚ → Option ℚ
  | [] => none
  | x :: xs => some (xs.foldl max x)

/-- Identity of a filled polygon: the arguments of the
`triangle_coordinates(i, j, alt)` or `hex_coordinates(i, j, steps)` call that
produced its vertex list. -/
inductive Shape where
  | tri (i j : ℤ) (alt : Bool)
  | hexCell (i j : ℤ)
  deriving DecidableEq, Repr

/-- A primitive drawing command, recording the surface it is issued against. -/
inductive Event where
  | fill (target : Ax) (s : Shape) (color : String)
  | colorbar (target : Ax) (lo hi : ℚ)
  deriving DecidableEq, Repr

/-- The surface a drawing command is issued against. -/
def eventTarget : Event → Ax
  | .fill t _ _ => t
  | .colorbar t _ _ => t

/-- The data-triangle loop of `heatmap_triangular`:
`for k, v in d.items(): i, j = k; ... ax.fill(x, y, ...)` with
`color = colormapper(d[i, j], a, b, cmap=cmap)` (`d[i, j] = v` since dict keys
are unique). Every fill targets the axis `axr` in use. -/
def triCellEvents (env : PlotEnv) (axr : Ax) (d : Dict) (a b : ℚ)
    (cmap : ℚ → env.Color) : List Event :=
  d.map fun e => Event.fill axr (Shape.tri e.1.1 e.1.2 false) (colormapper env e.2 a b (some cmap))

/-- One iteration of the smoothing loop of `heatmap_triangular`:
`try: alt_color = (d[i,j] + d[i,j+1] + d[i+1,j])/3.; ...; pyplot.fill(x, y, ...)
except KeyError: pass`. Any missing neighbor raises `KeyError` before the fill,
so the fill happens only when all three keys are present. The fill is the
module-level `pyplot.fill`, which targets pyplot's current axes `cur`. -/
def altBody (env : PlotEnv) (cur : Ax) (d : Dict) (a b : ℚ)
    (cmap : ℚ → env.Color) (i j : ℤ) : List Event :=
  match dlookup d (i, j), dlookup d (i, j + 1), dlookup d (i + 1, j) with
  | some v1, some v2, some v3 =>
      [Event.fill cur (Shape.tri i j true) (colormapper env ((v1 + v2 + v3) / 3) a b (some cmap))]
  | _, _, _ => []

/-- `offset = 0; if not boundary: offset = 1` in `heatmap_triangular`. -/
def triOffset (boundary : Bool) : ℤ :=
  if boundary then 0 else 1

/-- The smoothing loop of `heatmap_triangular`:
`for i in range(offset, steps+1-offset): for j in range(offset, steps-i-offset): ...`. -/
def triAltEvents (env : PlotEnv) (cur : Ax) (d : Dict) (a b : ℚ)
    (cmap : ℚ → env.Color) (steps : ℤ) (boundary : Bool) : List Event :=
  (pyRange (triOffset boundary) (steps + 1 - triOffset boundary)).flatMap fun i =>
    (pyRange (triOffset boundary) (steps - i - triOffset boundary)).flatMap fun j =>
      altBody env cur d a b cmap i j

/-- `heatmap_triangular(d, steps, cmap_name=None, boundary=True, ax=None, scientific=False)`:
resolve the axis (`pyplot.subplot()`, i.e. the current axes `cur`, when `ax` is
absent) and colormap, take `a = min(d.values())`, `b = max(d.values())`
(a `ValueError` on an empty dict), fill the data triangles on the resolved
axis, fill the alt triangles via module-level `pyplot.fill` (on `cur`),
attach the colorbar to the resolved axis and return that axis. -/
def heatmap_triangular (env : PlotEnv) (d : Dict) (steps : ℤ)
    (cmap_name : Option String) (boundary : Bool) (ax : Option Ax) (cur : Ax) :
    Except PyErr (List Event × Ax) :=
  let axr := ax.getD cur
  let cmap := resolveCmap env cmap_name
  match listMin (dvalues d), listMax (dvalues d) with
  | some a, some b =>
      .ok (triCellEvents env axr d a b cmap
            ++ triAltEvents env cur d a b cmap steps boundary
            ++ [Event.colorbar axr a b], axr)
  | _, _ => .error .valueError

/-- The cell loop of `heatmap_hexagonal`: for each dict entry, look up
`hex_coordinates(i, j, steps)`; when it is not `None`, fill the polygon on the
resolved axis with `colormapper(d[i, j], a, b, cmap=cmap)`. -/
def hexCellEvents (env : PlotEnv) (axr : Ax) (d : Dict) (steps : ℤ) (a b : ℚ)
    (cmap : ℚ → env.Color) : List Event :=
  d.flatMap fun e =>
    match env.hexCoordinates e.1.1 e.1.2 steps with
    | some _ => [Event.fill axr (Shape.hexCell e.1.1 e.1.2) (colormapper env e.2 a b (some cmap))]
    | none => []

/-- `heatmap_hexagonal(d, steps, cmap_name=None, boundary=True, ax=None,
scientific=False, min_max_scale=None)`: like the triangular renderer but with
hexagonal cells, no smoothing loop, and an optional explicit color-scale
override `min_max_scale` (when `None`, `a`/`b` come from `min`/`max` of the
dict values, a `ValueError` on an empty dict). `boundary` is accepted and
unused by the source. All fills and the colorbar target the resolved axis,
which is returned. -/
def heatmap_hexagonal (env : PlotEnv) (d : Dict) (steps : ℤ)
    (cmap_name : Option String) (boundary : Bool) (ax : Option Ax) (cur : Ax)
    (min_max_scale : Option (ℚ × ℚ)) : Except PyErr (List Event × Ax) :=
  let axr := ax.getD cur
  let cmap := resolveCmap env cmap_name
  let ab : Except PyErr (ℚ × ℚ) :=
    match min_max_scale with
    | none =>
        match listMin (dvalues d), listMax (dvalues d) with
        | some a, some b => .ok (a, b)
        | _, _ => .error .valueError
    | some s => .ok (s.1, s.2)
  ab.map fun s =>
    (hexCellEvents env axr d steps s.1 s.2 cmap ++ [Event.colorbar axr s.1 s.2], axr)

/-- `heatmap(*args, **kwargs)`. The `style` argument models the keyword state:
`none` = the keyword was omitted, `some none` = `style=None`,
`some (some s)` = `style=s`. When the keyword is omitted, the
`except KeyError: style = "triangular"` handler fires, but the
`del kwargs['style']` in the `finally` block then raises a fresh `KeyError`
(the key is not present), so the call fails before any dispatch. Otherwise
`None` is replaced by `"triangular"`, the style is lowercased, a `"tri"`
prefix dispatches to the triangular renderer, a `"hex"` prefix to the
hexagonal one, and anything else falls through returning Python `None`
(modelled `.ok none`) without drawing. The renderers receive their default
`boundary=True` and `min_max_scale=None` since `heatmap` forwards neither. -/
def heatmap (env : PlotEnv) (d : Dict) (steps : ℤ) (cmap_name : Option String)
    (ax : Option Ax) (cur : Ax) (style : Option (Option String)) :
    Except PyErr (Option (List Event × Ax)) :=
  match style with
  | none => .error .keyError
  | some st =>
      let st := st.getD "triangular"
      if pyStartsWith (pyLower st) "tri" then
        (heatmap_triangular env d steps cmap_name true ax cur).map some
      else if pyStartsWith (pyLower st) "hex" then
        (heatmap_hexagonal env d steps cmap_name true ax cur none).map some
      else .ok none

/-- The dict-building loop of `plot_heatmap`:
`for x1, x2, x3 in simplex_points(steps=steps, boundary=boundary):
   d[(x1, x2)] = func(normalize([x1, x2, x3]))`
(the loop stops at the first exception `normalize` raises). -/
def plotHeatmapData (func : List ℚ → ℚ) (steps : ℤ) (boundary : Bool) :
    Except PyErr Dict :=
  (simplex_points steps boundary).mapM fun t =>
    (normalize [(t.1 : ℚ), (t.2.1 : ℚ), (t.2.2 : ℚ)]).map fun ps =>
      ((t.1, t.2.1), func ps)

/-- `plot_heatmap(func, steps=40, boundary=True, cmap_name=None, ax=None,
style=None)`: build the value map, then call
`heatmap(d, steps, cmap_name=cmap_name, ax=ax, style=style)` (the `style`
keyword is always present in that call, and `boundary` is not forwarded). -/
def plot_heatmap (env : PlotEnv) (func : List ℚ → ℚ) (steps : ℤ)
    (boundary : Bool) (cmap_name : Option String) (ax : Option Ax) (cur : Ax)
    (style : Option String) : Except PyErr (Option (List Event × Ax)) := do
  let d ← plotHeatmapData func steps boundary
  heatmap env d steps cmap_name ax cur (some style)

/-- A concrete environment for evaluating the model on explicit inputs:
colors are the normalized positions themselves, rendered with `toString`,
and the hex-coordinate table is empty. -/
def natEnv : PlotEnv where
  Color := ℚ
  Poly := Unit
  defaultColorMap := fun q => q
  getCmap := fun _ q => q
  rgb2hex := fun q => toString q
  hexCoordinates := fun _ _ _ => none

/-! ## Helper lemmas -/

theorem pyRange_pairwise (a b : ℤ) : (pyRange a b).Pairwise (· < ·) := by
  unfold pyRange
  rw [List.pairwise_map]
  exact (List.pairwise_lt_range _).imp fun h => by omega

theorem mem_simplex_points_true {steps : ℤ} {t : ℤ × ℤ × ℤ} :
    t ∈ simplex_points steps true ↔
      0 ≤ t.1 ∧ 0 ≤ t.2.1 ∧ 0 ≤ t.2.2 ∧ t.1 + t.2.1 + t.2.2 = steps := by
  obtain ⟨x, y, z⟩ := t
  simp only [simplex_points, reduceIte, List.mem_flatMap, List.mem_map, mem_pyRange,
    Prod.mk.injEq]
  constructor
  · rintro ⟨x1, hx1, x2, hx2, rfl, rfl, h⟩
    omega
  · rintro ⟨hx, hy, hz, hsum⟩
    exact ⟨x, by omega, y, by omega, rfl, rfl, by omega⟩

theorem mem_simplex_points_false {steps : ℤ} {t : ℤ × ℤ × ℤ} :
    t ∈ simplex_points steps false ↔
      1 ≤ t.1 ∧ 1 ≤ t.2.1 ∧ 1 ≤ t.2.2 ∧ t.1 + t.2.1 + t.2.2 = steps := by
  obtain ⟨x, y, z⟩ := t
  simp only [simplex_points, Bool.false_eq_true, if_false, List.mem_flatMap,
    List.mem_map, mem_pyRange, Prod.mk.injEq]
  constructor
  · rintro ⟨x1, hx1, x2, hx2, rfl, rfl, h⟩
    omega
  · rintro ⟨hx, hy, hz, hsum⟩
    exact ⟨x, by omega, y, by omega, rfl, rfl, by omega⟩

theorem simplex_points_pairwise (steps : ℤ) (b : Bool) :
    (simplex_points steps b).Pairwise
      (fun p q => p.1 < q.1 ∨ (p.1 = q.1 ∧ p.2.1 < q.2.1)) := by
  unfold simplex_points
  rw [List.pairwise_flatMap]
  refine ⟨fun x1 _ => ?_, ?_⟩
  · rw [List.pairwise_map]
    exact (pyRange_pairwise _ _).imp fun h => Or.inr ⟨rfl, h⟩
  · refine (pyRange_pairwise _ _).imp ?_
    intro i i' hii x hx y hy
    simp only [List.mem_map] at hx hy
    obtain ⟨x2, -, rfl⟩ := hx
    obtain ⟨y2, -, rfl⟩ := hy
    exact Or.inl hii

/-! ## Claim theorems -/

/-- C3: `simplex_points(steps, boundary=True)` yields exactly the non-negative
integer triples summing to `steps`, in nested-loop order (outer coordinate
ascending, then inner ascending); with `boundary=False` exactly the triples
with all components at least 1; at `steps=3` the ten boundary triples come out
in the stated order and the non-boundary enumeration is `[(1,1,1)]`. -/
theorem simplex_points_spec :
    (∀ steps : ℤ, 0 ≤ steps →
      (∀ t : ℤ × ℤ × ℤ, t ∈ simplex_points steps true ↔
          0 ≤ t.1 ∧ 0 ≤ t.2.1 ∧ 0 ≤ t.2.2 ∧ t.1 + t.2.1 + t.2.2 = steps) ∧
      (∀ t : ℤ × ℤ × ℤ, t ∈ simplex_points steps false ↔
          1 ≤ t.1 ∧ 1 ≤ t.2.1 ∧ 1 ≤ t.2.2 ∧ t.1 + t.2.1 + t.2.2 = steps) ∧
      (∀ b : Bool, (simplex_points steps b).Pairwise
          (fun p q => p.1 < q.1 ∨ (p.1 = q.1 ∧ p.2.1 < q.2.1)))) ∧
    simplex_points 3 true =
      [(0, 0, 3), (0, 1, 2), (0, 2, 1), (0, 3, 0), (1, 0, 2),
       (1, 1, 1), (1, 2, 0), (2, 0, 1), (2, 1, 0), (3, 0, 0)] ∧
    simplex_points 3 false = [(1, 1, 1)] :=
  ⟨fun steps _ => ⟨fun _ => mem_simplex_points_true, fun _ => mem_simplex_points_false,
    fun b => simplex_points_pairwise steps b⟩, by decide, by decide⟩

theorem simplex_points_spec_witness :
    (0 : ℤ) ≤ 3 ∧
    (((1, 1, 1) : ℤ × ℤ × ℤ) ∈ simplex_points 3 false ↔
      1 ≤ ((1, 1, 1) : ℤ × ℤ × ℤ).1 ∧ 1 ≤ ((1, 1, 1) : ℤ × ℤ × ℤ).2.1 ∧
      1 ≤ ((1, 1, 1) : ℤ × ℤ × ℤ).2.2 ∧
      ((1, 1, 1) : ℤ × ℤ × ℤ).1 + ((1, 1, 1) : ℤ × ℤ × ℤ).2.1 +
        ((1, 1, 1) : ℤ × ℤ × ℤ).2.2 = 3) :=
  ⟨by decide, (simplex_points_spec.1 3 (by decide)).2.1 (1, 1, 1)⟩

/-- C4: `project_point((a,b,c)) = (b + c/2, c*sqrt(3)/2)` for every triple,
it is linear in its inputs, and it maps the three simplex corners to `(0,0)`,
`(N,0)` and `(N/2, N*sqrt(3)/2)` for every non-negative `N`. -/
theorem project_point_spec :
    (∀ p : ℝ × ℝ × ℝ, project_point p = (p.2.1 + p.2.2 / 2, p.2.2 * (Real.sqrt 3 / 2))) ∧
    (∀ a b c a' b' c' s u : ℝ,
        project_point (s * a + u * a', s * b + u * b', s * c + u * c') =
          (s * (project_point (a, b, c)).1 + u * (project_point (a', b', c')).1,
           s * (project_point (a, b, c)).2 + u * (project_point (a', b', c')).2)) ∧
    (∀ N : ℝ, 0 ≤ N →
        project_point (N, 0, 0) = (0, 0) ∧
        project_point (0, N, 0) = (N, 0) ∧
        project_point (0, 0, N) = (N / 2, N * Real.sqrt 3 / 2)) := by
  refine ⟨fun p => ?_, fun a b c a' b' c' s u => ?_, fun N _ => ⟨?_, ?_, ?_⟩⟩ <;>
    · simp only [project_point, SQRT3OVER2, Prod.mk.injEq]
      constructor <;> ring_nf

theorem project_point_spec_witness :
    (0 : ℝ) ≤ 3 ∧
    (project_point (3, 0, 0) = (0, 0) ∧ project_point (0, 3, 0) = (3, 0) ∧
      project_point (0, 0, 3) = (3 / 2, 3 * Real.sqrt 3 / 2)) :=
  ⟨by norm_num, project_point_spec.2.2 3 (by norm_num)⟩

/-- C5: on an empty value map both renderers fail while determining the
color-scale range (`min`/`max` of an empty sequence raises `ValueError`);
for the hexagonal renderer this is the default `min_max_scale=None` path,
the only configuration in which the range is computed by `min`/`max`. -/
theorem heatmap_empty_value_map_fails (env : PlotEnv) (steps : ℤ)
    (cn : Option String) (bdy : Bool) (ax : Option Ax) (cur : Ax) :
    heatmap_triangular env [] steps cn bdy ax cur = .error .valueError ∧
    heatmap_hexagonal env [] steps cn bdy ax cur none = .error .valueError :=
  ⟨rfl, rfl⟩

/-- C7: with a degenerate range `b == a`, `colormapper` returns the resolved
palette's color at position 0 for every value `x` (no division by zero). -/
theorem colormapper_degenerate_range (env : PlotEnv) (x a : ℚ)
    (cmap : Option (ℚ → env.Color)) :
    colormapper env x a a cmap = env.rgb2hex ((cmap.getD env.defaultColorMap) 0) := by
  unfold colormapper
  cases cmap <;> simp

/-- C8: for `b != a`, `colormapper` feeds the palette exactly the unclamped
normalized position `(x - a)/(b - a)`, so any two calls with the same
normalized position (e.g. `colormapper(5, 0, 10)` and `colormapper(0.5, 0, 1)`)
produce the same color. -/
theorem colormapper_unclamped_normalization (env : PlotEnv) (cm : ℚ → env.Color)
    (x a b x' a' b' : ℚ) (hba : b ≠ a) (hba' : b' ≠ a')
    (hpos : (x - a) / (b - a) = (x' - a') / (b' - a')) :
    colormapper env x a b (some cm) = env.rgb2hex (cm ((x - a) / (b - a))) ∧
    colormapper env x a b (some cm) = colormapper env x' a' b' (some cm) := by
  have h1 : b - a ≠ 0 := sub_ne_zero.mpr hba
  have h2 : b' - a' ≠ 0 := sub_ne_zero.mpr hba'
  unfold colormapper
  simp [h1, h2, hpos]

theorem colormapper_unclamped_normalization_witness :
    (10 : ℚ) ≠ 0 ∧ (1 : ℚ) ≠ 0 ∧
    ((5 : ℚ) - 0) / (10 - 0) = ((1 / 2 : ℚ) - 0) / (1 - 0) ∧
    (colormapper natEnv 5 0 10 (some id) =
        natEnv.rgb2hex (id (((5 : ℚ) - 0) / (10 - 0))) ∧
      colormapper natEnv 5 0 10 (some id) = colormapper natEnv (1 / 2) 0 1 (some id)) :=
  ⟨by norm_num, by norm_num, by norm_num,
   colormapper_unclamped_normalization natEnv id 5 0 10 (1 / 2) 0 1
     (by norm_num) (by norm_num) (by norm_num)⟩

/-- C9: a style whose lowercase form starts with neither `"tri"` nor `"hex"`
makes `heatmap` fall through both dispatch branches: it draws nothing,
raises nothing and returns Python `None`. -/
theorem heatmap_unknown_style_silent_noop (env : PlotEnv) (d : Dict) (steps : ℤ)
    (cn : Option String) (ax : Option Ax) (cur : Ax) (s : String)
    (h1 : pyStartsWith (pyLower s) "tri" = false)
    (h2 : pyStartsWith (pyLower s) "hex" = false) :
    heatmap env d steps cn ax cur (some (some s)) = .ok none := by
  unfold heatmap
  simp [h1, h2]

theorem heatmap_unknown_style_silent_noop_witness :
    pyStartsWith (pyLower "bogus") "tri" = false ∧
    pyStartsWith (pyLower "bogus") "hex" = false ∧
    heatmap natEnv [((0, 0), 1)] 1 none none 0 (some (some "bogus")) = .ok none :=
  ⟨by decide, by decide,
   heatmap_unknown_style_silent_noop natEnv [((0, 0), 1)] 1 none none 0 "bogus"
     (by decide) (by decide)⟩

/-- C1: `heatmap` style dispatch. `style=None` and any style whose lowercase
form starts with `"tri"` reach the triangular renderer; a lowercase `"hex"`
prefix (which excludes a `"tri"` prefix, the branch tested first) reaches the
hexagonal renderer. But when the `style` keyword is omitted altogether the
call raises `KeyError`: the `except KeyError` handler sets the default, yet
`del kwargs['style']` in the `finally` block re-raises on the absent key, so
the claimed omitted-keyword default never happens. -/
theorem heatmap_style_dispatch :
    (∀ (env : PlotEnv) (d : Dict) (steps : ℤ) (cn : Option String)
        (ax : Option Ax) (cur : Ax),
        heatmap env d steps cn ax cur none = .error .keyError) ∧
    (∀ (env : PlotEnv) (d : Dict) (steps : ℤ) (cn : Option String)
        (ax : Option Ax) (cur : Ax),
        heatmap env d steps cn ax cur (some none) =
          (heatmap_triangular env d steps cn true ax cur).map some) ∧
    (∀ (env : PlotEnv) (d : Dict) (steps : ℤ) (cn : Option String)
        (ax : Option Ax) (cur : Ax) (s : String),
        pyStartsWith (pyLower s) "tri" = true →
        heatmap env d steps cn ax cur (some (some s)) =
          (heatmap_triangular env d steps cn true ax cur).map some) ∧
    (∀ (env : PlotEnv) (d : Dict) (steps : ℤ) (cn : Option String)
        (ax : Option Ax) (cur : Ax) (s : String),
        pyStartsWith (pyLower s) "tri" = false →
        pyStartsWith (pyLower s) "hex" = true →
        heatmap env d steps cn ax cur (some (some s)) =
          (heatmap_hexagonal env d steps cn true ax cur none).map some) := by
  refine ⟨fun env d steps cn ax cur => rfl, fun env d steps cn ax cur => ?_,
    fun env d steps cn ax cur s h => ?_, fun env d steps cn ax cur s h1 h2 => ?_⟩
  · unfold heatmap
    simp [show pyStartsWith (pyLower "triangular") "tri" = true from by decide]
  · unfold heatmap
    simp [h]
  · unfold heatmap
    simp [h1, h2]

theorem heatmap_style_dispatch_witness :
    pyStartsWith (pyLower "HEX") "tri" = false ∧
    pyStartsWith (pyLower "HEX") "hex" = true ∧
    heatmap natEnv [((0, 0), 1)] 1 none none 0 (some (some "HEX")) =
      (heatmap_hexagonal natEnv [((0, 0), 1)] 1 none true none 0 none).map some ∧
    heatmap natEnv [((0, 0), 1)] 1 none none 0 none = .error .keyError :=
  ⟨by decide, by decide,
   heatmap_style_dispatch.2.2.2 natEnv [((0, 0), 1)] 1 none none 0 "HEX"
     (by decide) (by decide),
   heatmap_style_dispatch.1 natEnv [((0, 0), 1)] 1 none none 0⟩

/-! ## Alt-triangle membership lemmas -/

theorem mem_altBody {env : PlotEnv} {cur : Ax} {d : Dict} {a b : ℚ}
    {cmap : ℚ → env.Color} {i j : ℤ} {e : Event} :
    e ∈ altBody env cur d a b cmap i j ↔
      ∃ v1 v2 v3, dlookup d (i, j) = some v1 ∧ dlookup d (i, j + 1) = some v2 ∧
        dlookup d (i + 1, j) = some v3 ∧
        e = .fill cur (.tri i j true)
              (colormapper env ((v1 + v2 + v3) / 3) a b (some cmap)) := by
  unfold altBody
  rcases h1 : dlookup d (i, j) with _ | v1 <;>
    rcases h2 : dlookup d (i, j + 1) with _ | v2 <;>
      rcases h3 : dlookup d (i + 1, j) with _ | v3 <;>
        simp

theorem mem_triAltEvents {env : PlotEnv} {cur : Ax} {d : Dict} {a b : ℚ}
    {cmap : ℚ → env.Color} {steps : ℤ} {bdy : Bool} {e : Event} :
    e ∈ triAltEvents env cur d a b cmap steps bdy ↔
      ∃ i, i ∈ pyRange (triOffset bdy) (steps + 1 - triOffset bdy) ∧
        ∃ j, j ∈ pyRange (triOffset bdy) (steps - i - triOffset bdy) ∧
          e ∈ altBody env cur d a b cmap i j := by
  unfold triAltEvents
  simp [List.mem_flatMap]

theorem fill_alt_not_mem_triCellEvents {env : PlotEnv} {axr : Ax} {d : Dict}
    {a b : ℚ} {cmap : ℚ → env.Color} {t : Ax} {i j : ℤ} {c : String} :
    Event.fill t (Shape.tri i j true) c ∉ triCellEvents env axr d a b cmap := by
  intro h
  simp [triCellEvents, List.mem_map] at h

theorem fill_alt_mem_evs_iff {env : PlotEnv} {axr cur : Ax} {d : Dict} {a b : ℚ}
    {cmap : ℚ → env.Color} {steps : ℤ} {bdy : Bool} {i j : ℤ} {c : String} :
    Event.fill cur (Shape.tri i j true) c ∈
        triCellEvents env axr d a b cmap ++ triAltEvents env cur d a b cmap steps bdy
          ++ [Event.colorbar axr a b] ↔
      i ∈ pyRange (triOffset bdy) (steps + 1 - triOffset bdy) ∧
      j ∈ pyRange (triOffset bdy) (steps - i - triOffset bdy) ∧
      ∃ v1 v2 v3, dlookup d (i, j) = some v1 ∧ dlookup d (i, j + 1) = some v2 ∧
        dlookup d (i + 1, j) = some v3 ∧
        c = colormapper env ((v1 + v2 + v3) / 3) a b (some cmap) := by
  constructor
  · intro h
    rcases List.mem_append.mp h with h' | hcb
    · rcases List.mem_append.mp h' with hcell | halt
      · exact absurd hcell fill_alt_not_mem_triCellEvents
      · obtain ⟨i', hi', j', hj', hb⟩ := mem_triAltEvents.mp halt
        obtain ⟨v1, v2, v3, h1, h2, h3, heq⟩ := mem_altBody.mp hb
        simp only [Event.fill.injEq, Shape.tri.injEq] at heq
        obtain ⟨-, ⟨rfl, rfl, -⟩, rfl⟩ := heq
        exact ⟨hi', hj', v1, v2, v3, h1, h2, h3, rfl⟩
    · simp at hcb
  · rintro ⟨hi, hj, v1, v2, v3, h1, h2, h3, rfl⟩
    exact List.mem_append.mpr (Or.inl (List.mem_append.mpr (Or.inr
      (mem_triAltEvents.mpr ⟨i, hi, j, hj, mem_altBody.mpr ⟨v1, v2, v3, h1, h2, h3, rfl⟩⟩))))

/-- C6: in the triangular renderer, for every index `(i, j)` in the smoothing
loop ranges, the alt triangle at `(i, j)` is filled (via the module-level
fill, i.e. on pyplot current axes `cur`) with the colormapped arithmetic mean
of the three neighbors exactly when all three keys `(i,j)`, `(i,j+1)`,
`(i+1,j)` are present in the value map; a missing neighbor silently skips
that alt triangle and the renderer still succeeds. -/
theorem heatmap_triangular_alt_smoothing (env : PlotEnv) (d : Dict) (steps : ℤ)
    (cn : Option String) (bdy : Bool) (ax : Option Ax) (cur : Ax) (i j : ℤ)
    (hne : d ≠ [])
    (hi : i ∈ pyRange (triOffset bdy) (steps + 1 - triOffset bdy))
    (hj : j ∈ pyRange (triOffset bdy) (steps - i - triOffset bdy)) :
    ∃ evs a b, listMin (dvalues d) = some a ∧ listMax (dvalues d) = some b ∧
      heatmap_triangular env d steps cn bdy ax cur = .ok (evs, ax.getD cur) ∧
      ((∃ c, Event.fill cur (Shape.tri i j true) c ∈ evs) ↔
        (∃ v1 v2 v3, dlookup d (i, j) = some v1 ∧ dlookup d (i, j + 1) = some v2 ∧
          dlookup d (i + 1, j) = some v3)) ∧
      (∀ v1 v2 v3 c, dlookup d (i, j) = some v1 → dlookup d (i, j + 1) = some v2 →
        dlookup d (i + 1, j) = some v3 →
        (Event.fill cur (Shape.tri i j true) c ∈ evs ↔
          c = colormapper env ((v1 + v2 + v3) / 3) a b (some (resolveCmap env cn)))) := by
  cases d with
  | nil => exact absurd rfl hne
  | cons e0 es =>
    refine ⟨_, _, _, rfl, rfl, rfl, ?_, ?_⟩
    · constructor
      · rintro ⟨c, hc⟩
        obtain ⟨-, -, v1, v2, v3, h1, h2, h3, -⟩ := fill_alt_mem_evs_iff.mp hc
        exact ⟨v1, v2, v3, h1, h2, h3⟩
      · rintro ⟨v1, v2, v3, h1, h2, h3⟩
        exact ⟨_, fill_alt_mem_evs_iff.mpr ⟨hi, hj, v1, v2, v3, h1, h2, h3, rfl⟩⟩
    · intro v1 v2 v3 c h1 h2 h3
      constructor
      · intro hc
        obtain ⟨-, -, w1, w2, w3, g1, g2, g3, rfl⟩ := fill_alt_mem_evs_iff.mp hc
        obtain rfl : w1 = v1 := Option.some.inj (g1.symm.trans h1)
        obtain rfl : w2 = v2 := Option.some.inj (g2.symm.trans h2)
        obtain rfl : w3 = v3 := Option.some.inj (g3.symm.trans h3)
        rfl
      · rintro rfl
        exact fill_alt_mem_evs_iff.mpr ⟨hi, hj, v1, v2, v3, h1, h2, h3, rfl⟩

theorem heatmap_triangular_alt_smoothing_witness :
    ([((0, 0), 0), ((0, 1), 1), ((1, 0), 2)] : Dict) ≠ [] ∧
    (0 : ℤ) ∈ pyRange (triOffset true) (2 + 1 - triOffset true) ∧
    (0 : ℤ) ∈ pyRange (triOffset true) (2 - 0 - triOffset true) ∧
    (∃ evs a b,
      listMin (dvalues [((0, 0), 0), ((0, 1), 1), ((1, 0), 2)]) = some a ∧
      listMax (dvalues [((0, 0), 0), ((0, 1), 1), ((1, 0), 2)]) = some b ∧
      heatmap_triangular natEnv [((0, 0), 0), ((0, 1), 1), ((1, 0), 2)] 2 none true
          (some 0) 1 = .ok (evs, (some 0).getD 1) ∧
      ((∃ c, Event.fill 1 (Shape.tri 0 0 true) c ∈ evs) ↔
        (∃ v1 v2 v3,
          dlookup [((0, 0), 0), ((0, 1), 1), ((1, 0), 2)] (0, 0) = some v1 ∧
          dlookup [((0, 0), 0), ((0, 1), 1), ((1, 0), 2)] (0, 0 + 1) = some v2 ∧
          dlookup [((0, 0), 0), ((0, 1), 1), ((1, 0), 2)] (0 + 1, 0) = some v3)) ∧
      (∀ v1 v2 v3 c,
        dlookup [((0, 0), 0), ((0, 1), 1), ((1, 0), 2)] (0, 0) = some v1 →
        dlookup [((0, 0), 0), ((0, 1), 1), ((1, 0), 2)] (0, 0 + 1) = some v2 →
        dlookup [((0, 0), 0), ((0, 1), 1), ((1, 0), 2)] (0 + 1, 0) = some v3 →
        (Event.fill 1 (Shape.tri 0 0 true) c ∈ evs ↔
          c = colormapper natEnv ((v1 + v2 + v3) / 3) a b
                (some (resolveCmap natEnv none))))) :=
  ⟨by decide, by decide, by decide,
   heatmap_triangular_alt_smoothing natEnv [((0, 0), 0), ((0, 1), 1), ((1, 0), 2)] 2
     none true (some 0) 1 0 0 (by decide) (by decide) (by decide)⟩

/-- C2: the claim that every drawing primitive of a heatmap rendering targets
the surface supplied to (or created by) the renderer fails on the code: the
alt-triangle fills go through the module-level `pyplot.fill`, which draws on
pyplot current axes. With the value map `{(0,0):0, (0,1):1, (1,0):2}`,
`steps=2`, a supplied axis `0` and current axes `1`, the three data-cell
fills and the colorbar target axis `0` (which is also returned), but the alt
fill targets axis `1`. The intent of the code is plainly axis `0`: every
sibling call uses `ax.fill`, and the surface drawn on here is not the one
returned. -/
theorem heatmap_triangular_alt_fill_foreign_surface :
    ∃ evs, heatmap_triangular natEnv [((0, 0), 0), ((0, 1), 1), ((1, 0), 2)] 2
        none true (some 0) 1 = .ok (evs, 0) ∧
      evs.map eventTarget = [0, 0, 0, 1, 0] :=
  ⟨_, rfl, by decide⟩

/-! ## plot_heatmap lemmas -/

theorem exceptMapM_ok {α β : Type} (g : α → Except PyErr β) (l : List α)
    (h : ∀ x ∈ l, ∃ y, g x = .ok y) :
    ∃ out, l.mapM g = .ok out ∧ ∀ y ∈ out, ∃ x, x ∈ l ∧ g x = .ok y := by
  induction l with
  | nil => exact ⟨[], rfl, by simp⟩
  | cons a as ih =>
      obtain ⟨y, hy⟩ := h a (List.mem_cons_self a as)
      obtain ⟨out, hout, hmem⟩ := ih fun x hx => h x (List.mem_cons_of_mem a hx)
      refine ⟨y :: out, ?_, ?_⟩
      · rw [List.mapM_cons, hy, hout]
        rfl
      · intro z hz
        rcases List.mem_cons.mp hz with rfl | hz'
        · exact ⟨a, List.mem_cons_self a as, hy⟩
        · obtain ⟨x, hx, hgx⟩ := hmem z hz'
          exact ⟨x, List.mem_cons_of_mem a hx, hgx⟩

theorem list_sum_div (l : List ℚ) (s : ℚ) :
    (l.map fun v => v / s).sum = l.sum / s := by
  induction l with
  | nil => simp
  | cons a as ih => simp [ih, add_div]

theorem sum_components_of_mem {steps : ℤ} {b : Bool} {t : ℤ × ℤ × ℤ}
    (ht : t ∈ simplex_points steps b) : t.1 + t.2.1 + t.2.2 = steps := by
  cases b
  · exact (mem_simplex_points_false.mp ht).2.2.2
  · exact (mem_simplex_points_true.mp ht).2.2.2

theorem normalize_of_sum_ne {xs : List ℚ} (h : xs.sum ≠ 0) :
    normalize xs = .ok (xs.map fun v => v / xs.sum) ∧
      (xs.map fun v => v / xs.sum).sum = 1 := by
  constructor
  · unfold normalize
    simp [h]
  · rw [list_sum_div, div_self h]

theorem sum_cast_ne_of_mem {steps : ℤ} {b : Bool} {t : ℤ × ℤ × ℤ}
    (hst : 1 ≤ steps) (ht : t ∈ simplex_points steps b) :
    ([(t.1 : ℚ), (t.2.1 : ℚ), (t.2.2 : ℚ)]).sum ≠ 0 := by
  have hc := sum_components_of_mem ht
  have hs : ([(t.1 : ℚ), (t.2.1 : ℚ), (t.2.2 : ℚ)]).sum = ((steps : ℤ) : ℚ) := by
    simp only [List.sum_cons, List.sum_nil, add_zero]
    exact_mod_cast (by omega : t.1 + (t.2.1 + t.2.2) = steps)
  rw [hs]
  exact_mod_cast (by omega : steps ≠ 0)

/-- C10: `plot_heatmap` at `steps=0`, `boundary=True` raises
`ZeroDivisionError` (the enumeration yields only `(0,0,0)` and `normalize`
divides by the zero coordinate sum); for every `steps >= 1` the value-map
building succeeds, and the caller function is applied exactly to the
normalized points, each of which sums to 1. -/
theorem plot_heatmap_normalization :
    (∀ (env : PlotEnv) (func : List ℚ → ℚ) (cn : Option String) (ax : Option Ax)
        (cur : Ax) (style : Option String),
        plot_heatmap env func 0 true cn ax cur style = .error .zeroDivisionError) ∧
    simplex_points 0 true = [(0, 0, 0)] ∧
    (∀ (func : List ℚ → ℚ) (steps : ℤ) (bdy : Bool), 1 ≤ steps →
        ∃ d, plotHeatmapData func steps bdy = .ok d ∧
          ∀ e ∈ d, ∃ t ps, t ∈ simplex_points steps bdy ∧
            normalize [(t.1 : ℚ), (t.2.1 : ℚ), (t.2.2 : ℚ)] = .ok ps ∧
            ps.sum = 1 ∧ e = ((t.1, t.2.1), func ps)) := by
  refine ⟨?_, by decide, ?_⟩
  · intro env func cn ax cur style
    have h : plotHeatmapData func 0 true = .error .zeroDivisionError := by
      unfold plotHeatmapData
      rw [show simplex_points 0 true = [((0 : ℤ), (0 : ℤ), (0 : ℤ))] from by decide]
      simp only [List.mapM_cons, List.mapM_nil, Int.cast_zero]
      rw [show normalize [(0 : ℚ), 0, 0] = .error .zeroDivisionError from by simp [normalize]]
      rfl
    unfold plot_heatmap
    rw [h]
    rfl
  intro func steps bdy hst
  have hok : ∀ t ∈ simplex_points steps bdy, ∃ y,
      ((normalize [(t.1 : ℚ), (t.2.1 : ℚ), (t.2.2 : ℚ)]).map fun ps =>
        ((t.1, t.2.1), func ps)) = .ok y := by
    intro t ht
    have hne := sum_cast_ne_of_mem hst ht
    exact ⟨_, by rw [(normalize_of_sum_ne hne).1]; rfl⟩
  obtain ⟨d, hd, hmem⟩ := exceptMapM_ok
    (fun t : ℤ × ℤ × ℤ => (normalize [(t.1 : ℚ), (t.2.1 : ℚ), (t.2.2 : ℚ)]).map
      fun ps => ((t.1, t.2.1), func ps))
    (simplex_points steps bdy) hok
  refine ⟨d, hd, ?_⟩
  intro e he
  obtain ⟨t, ht, hgt⟩ := hmem e he
  have hne := sum_cast_ne_of_mem hst ht
  rw [(normalize_of_sum_ne hne).1] at hgt
  refine ⟨t, _, ht, (normalize_of_sum_ne hne).1, (normalize_of_sum_ne hne).2, ?_⟩
  exact (Except.ok.inj hgt).symm

theorem plot_heatmap_normalization_witness :
    1 ≤ (1 : ℤ) ∧
    (∃ d, plotHeatmapData (fun _ => (0 : ℚ)) 1 true = .ok d ∧
      ∀ e ∈ d, ∃ t ps, t ∈ simplex_points 1 true ∧
        normalize [(t.1 : ℚ), (t.2.1 : ℚ), (t.2.2 : ℚ)] = .ok ps ∧
        ps.sum = 1 ∧ e = ((t.1, t.2.1), (fun _ => (0 : ℚ)) ps)) :=
  ⟨by decide, plot_heatmap_normalization.2.2 (fun _ => (0 : ℚ)) 1 true (by decide)⟩

end Ternary
